import Mathlib

/-!
Verification of the TerrariaClone simulation core (game.py) against its
natural-language specification.

The Python source is shallowly embedded: pygame rectangles become integer
records, tile grids become lists of lists of tile ids, float velocities
become rationals, and the pygame-driven main loop's per-tick bookkeeping
becomes explicit state-transition functions.  Python's floor division
(the // operator) is Int.fdiv; Python's int() truncation toward zero on a
rational q is q.num / q.den with Lean's truncating Int division.
-/

/-! ## Configuration constants (game.py lines 37-51) -/

/-- Size of a single tile in pixels (TILE_SIZE = 32). -/
def TILE_SIZE : ℤ := 32

/-- Width of the world in tiles (WORLD_WIDTH = 100). -/
def WORLD_WIDTH : ℤ := 100

/-- Height of the world in tiles (WORLD_HEIGHT = 60). -/
def WORLD_HEIGHT : ℤ := 60

/-- Number of frames per half-day (DAY_LENGTH = 60 * 20). -/
def DAY_LENGTH : ℕ := 60 * 20

/-- Number of ore required to spawn the boss (BOSS_SPAWN_ORE_COUNT = 10). -/
def BOSS_SPAWN_ORE_COUNT : ℕ := 10

/-! ## Tiles and the world grid

The world is `list[list[int]]` in the source, indexed world[y][x].
All tile reads in the source are guarded by explicit bounds checks
against WORLD_WIDTH/WORLD_HEIGHT, so the defaulted accessor tileD is
only ever consulted in bounds; the Option-valued accessor solidAt?
below models the read discipline exactly for the fault-freedom claim. -/

/-- World grid: rows of tile ids, world[y][x] as in the source. -/
abbrev World := List (List ℕ)

/-- A world produced for the 100x60 configuration: 60 rows of 100 tiles. -/
def wellFormed (world : World) : Prop :=
  world.length = 60 ∧ ∀ row ∈ world, row.length = 100

/-- Tile id 0 represents air; is_solid from game.py line 120. -/
def is_solid (tile_id : ℕ) : Bool :=
  tile_id != 0

/-- Read world[ty][tx] with default 0, used only under the source's bounds
guards (negative indices never reach it there). -/
def tileD (world : World) (ty tx : ℤ) : ℕ :=
  (world.getD ty.toNat []).getD tx.toNat 0

/-- Write world[ty][tx] = v, as the in-place assignments of the source. -/
def setTile (world : World) (ty tx : ℤ) (v : ℕ) : World :=
  world.set ty.toNat ((world.getD ty.toNat []).set tx.toNat v)

/-- Bounds guard 0 <= tx < WORLD_WIDTH and 0 <= ty < WORLD_HEIGHT used before
every grid read in the collision, mine and place code. -/
def inGrid (tx ty : ℤ) : Prop :=
  0 ≤ tx ∧ tx < WORLD_WIDTH ∧ 0 ≤ ty ∧ ty < WORLD_HEIGHT

instance (tx ty : ℤ) : Decidable (inGrid tx ty) := by
  unfold inGrid; infer_instance

/-- Total solidity query: the guarded read of the source collapsed to a
Bool, with out-of-range coordinates non-solid (the guard simply skips
them, which is observationally "not solid"). -/
def solidB (world : World) (tx ty : ℤ) : Bool :=
  if inGrid tx ty then is_solid (tileD world ty tx) else false

/-- Checked solidity query: mirrors the source read world[ty][tx] with its
bounds guard, but faults (none) if the list access itself would be out of
range.  Used to state that resolution never reads out of the grid. -/
def solidAt? (world : World) (tx ty : ℤ) : Option Bool :=
  if inGrid tx ty then
    (world.get? ty.toNat).bind fun row => (row.get? tx.toNat).map fun t => is_solid t
  else some false

/-! ## Rectangles and bodies (pygame.Rect with integer fields) -/

/-- Integer rectangle: pygame.Rect stores x, y, w, h as integers. -/
structure Rect where
  x : ℤ
  y : ℤ
  w : ℤ
  h : ℤ
  deriving DecidableEq

/-- Left edge (rect.left). -/
def Rect.left (r : Rect) : ℤ := r.x

/-- Right edge (rect.right = x + w). -/
def Rect.right (r : Rect) : ℤ := r.x + r.w

/-- Top edge (rect.top). -/
def Rect.top (r : Rect) : ℤ := r.y

/-- Bottom edge (rect.bottom = y + h). -/
def Rect.bottom (r : Rect) : ℤ := r.y + r.h

/-- Horizontal center (rect.centerx = x + w // 2, pygame floor division). -/
def Rect.centerx (r : Rect) : ℤ := r.x + r.w.fdiv 2

/-- Vertical center (rect.centery = y + h // 2). -/
def Rect.centery (r : Rect) : ℤ := r.y + r.h.fdiv 2

/-- Assigning rect.bottom = v moves y, keeping the size. -/
def Rect.setBottom (r : Rect) (v : ℤ) : Rect := { r with y := v - r.h }

/-- Assigning rect.top = v. -/
def Rect.setTop (r : Rect) (v : ℤ) : Rect := { r with y := v }

/-- Assigning rect.right = v moves x, keeping the size. -/
def Rect.setRight (r : Rect) (v : ℤ) : Rect := { r with x := v - r.w }

/-- Assigning rect.left = v. -/
def Rect.setLeft (r : Rect) (v : ℤ) : Rect := { r with x := v }

/-- pygame Rect.colliderect: strict overlap on both axes. -/
def colliderect (a b : Rect) : Prop :=
  a.x < b.x + b.w ∧ b.x < a.x + a.w ∧ a.y < b.y + b.h ∧ b.y < a.y + a.h

instance (a b : Rect) : Decidable (colliderect a b) := by
  unfold colliderect; infer_instance

/-- Physical body shared by Player, Enemy and Boss: rectangle, float
velocities (embedded as rationals) and the ground flag. -/
structure Body where
  rect : Rect
  vel_x : ℚ
  vel_y : ℚ
  on_ground : Bool
  deriving DecidableEq

/-- Python int(q) truncates toward zero; on a normalized rational this is
num / den with truncating integer division. -/
def pyInt (q : ℚ) : ℤ := q.num / (q.den : ℤ)

/-- The four sampled corners of a rectangle, in source order:
(left, top), (right-1, top), (left, bottom-1), (right-1, bottom-1). -/
def Rect.corners (r : Rect) : List (ℤ × ℤ) :=
  [(r.left, r.top), (r.right - 1, r.top), (r.left, r.bottom - 1), (r.right - 1, r.bottom - 1)]

/-! ## Collision resolution (Player lines 191-220, Enemy 320-349, Boss 396-424)

The three _resolve_collisions methods contain a textually identical
corner loop; Enemy and Boss append a horizontal world-bounds clamp.
The corner list is computed once from the rectangle before the loop
(a snapshot), so every iteration uses the original corner positions. -/

/-- One iteration of the corner loop: map the corner to a tile coordinate by
floor division, and if that tile is solid snap the rectangle according to
the signs of dy and dx (both if-chains run, as in the source). -/
def resolveStep (world : World) (dx dy : ℚ) (b : Body) (c : ℤ × ℤ) : Body :=
  let tx := c.1.fdiv TILE_SIZE
  let ty := c.2.fdiv TILE_SIZE
  if solidB world tx ty then
    let b1 :=
      if dy > 0 then
        { b with rect := b.rect.setBottom (ty * TILE_SIZE), vel_y := 0, on_ground := true }
      else if dy < 0 then
        { b with rect := b.rect.setTop ((ty + 1) * TILE_SIZE), vel_y := 0 }
      else b
    if dx > 0 then { b1 with rect := b1.rect.setRight (tx * TILE_SIZE) }
    else if dx < 0 then { b1 with rect := b1.rect.setLeft ((tx + 1) * TILE_SIZE) }
    else b1
  else b

/-- The shared corner loop of _resolve_collisions: fold resolveStep over the
snapshot of the four corners. -/
def resolve_collisions (world : World) (dx dy : ℚ) (b : Body) : Body :=
  b.rect.corners.foldl (resolveStep world dx dy) b

/-- Checked variant of one corner iteration, using the Option-valued
solidity query; identical control flow otherwise. -/
def resolveStepM (world : World) (dx dy : ℚ) (b : Body) (c : ℤ × ℤ) : Option Body :=
  let tx := c.1.fdiv TILE_SIZE
  let ty := c.2.fdiv TILE_SIZE
  match solidAt? world tx ty with
  | none => none
  | some false => some b
  | some true =>
    let b1 :=
      if dy > 0 then
        { b with rect := b.rect.setBottom (ty * TILE_SIZE), vel_y := 0, on_ground := true }
      else if dy < 0 then
        { b with rect := b.rect.setTop ((ty + 1) * TILE_SIZE), vel_y := 0 }
      else b
    some (if dx > 0 then { b1 with rect := b1.rect.setRight (tx * TILE_SIZE) }
          else if dx < 0 then { b1 with rect := b1.rect.setLeft ((tx + 1) * TILE_SIZE) }
          else b1)

/-- Checked corner loop. -/
def resolve_collisionsM (world : World) (dx dy : ℚ) (b : Body) : Option Body :=
  b.rect.corners.foldlM (resolveStepM world dx dy) b

/-- Horizontal world-bounds clamp appended by Enemy._resolve_collisions and
Boss._resolve_collisions (lines 345-349 and 420-424). -/
def clampToWorld (r : Rect) : Rect :=
  let r1 := if r.left < 0 then r.setLeft 0 else r
  if r1.right > WORLD_WIDTH * TILE_SIZE then r1.setRight (WORLD_WIDTH * TILE_SIZE) else r1

/-- Enemy and Boss _resolve_collisions: shared corner loop then clamp. -/
def enemy_resolve_collisions (world : World) (dx dy : ℚ) (b : Body) : Body :=
  let b1 := resolve_collisions world dx dy b
  { b1 with rect := clampToWorld b1.rect }

/-! ## C8: resolution with zero displacement -/

/-- With dx = dy = 0 no branch of the snap chain fires, so one corner
iteration is the identity. -/
theorem resolveStep_zero (world : World) (b : Body) (c : ℤ × ℤ) :
    resolveStep world 0 0 b c = b := by
  unfold resolveStep
  simp

/-- Folding the identity step leaves the body unchanged. -/
theorem resolve_collisions_zero (world : World) (b : Body) :
    resolve_collisions world 0 0 b = b := by
  unfold resolve_collisions Rect.corners
  simp [resolveStep_zero]

/-- C8 (amended): with dx = dy = 0 the shared corner loop — the whole of
Player._resolve_collisions — never changes the body, at any position; for
Enemy and Boss the same holds provided the body lies horizontally within
world bounds, since their trailing clamp is the only part that can move an
out-of-bounds body. -/
theorem C8_resolve_zero_displacement (world : World) (b : Body) :
    resolve_collisions world 0 0 b = b ∧
    (0 ≤ b.rect.x → b.rect.x + b.rect.w ≤ WORLD_WIDTH * TILE_SIZE →
      enemy_resolve_collisions world 0 0 b = b) := by
  refine ⟨resolve_collisions_zero world b, fun h1 h2 => ?_⟩
  unfold enemy_resolve_collisions
  rw [resolve_collisions_zero]
  have hleft : ¬ b.rect.left < 0 := by
    simp only [Rect.left]; omega
  have hright : ¬ b.rect.right > WORLD_WIDTH * TILE_SIZE := by
    simp only [Rect.right, WORLD_WIDTH, TILE_SIZE] at *; omega
  simp [clampToWorld, hleft, hright]

/-- Witness for C8: a concrete in-bounds enemy body is unchanged by a
zero-displacement resolution call. -/
theorem C8_resolve_zero_displacement_witness :
    enemy_resolve_collisions [] 0 0 ⟨⟨64, 32, 32, 48⟩, 0, 0, false⟩ =
      ⟨⟨64, 32, 32, 48⟩, 0, 0, false⟩ :=
  (C8_resolve_zero_displacement [] ⟨⟨64, 32, 32, 48⟩, 0, 0, false⟩).2
    (by norm_num) (by norm_num [WORLD_WIDTH, TILE_SIZE])

/-- C8 counterexample: an Enemy body standing at x = -5 (outside the left
world edge) is moved to x = 0 by a dx = dy = 0 resolution call, because the
Enemy/Boss clamp runs unconditionally — so the claim that zero-displacement
resolution never changes any body's position is false. -/
theorem C8_counterexample :
    (enemy_resolve_collisions [] 0 0 ⟨⟨-5, 0, 32, 48⟩, 0, 0, false⟩).rect.x = 0 ∧
    (-5 : ℤ) ≠ 0 := by
  constructor
  · decide
  · decide

/-! ## List access helper lemmas -/

/-- Reading back a just-set index. -/
theorem getD_set_self {α : Type} (l : List α) (i : ℕ) (a d : α) (h : i < l.length) :
    (l.set i a).getD i d = a := by
  induction l generalizing i with
  | nil => simp at h
  | cons x xs ih =>
    cases i with
    | zero => rfl
    | succ n => exact ih n (by simpa using h)

/-- Setting one index leaves the others unchanged. -/
theorem getD_set_ne {α : Type} (l : List α) (i j : ℕ) (a d : α) (h : i ≠ j) :
    (l.set i a).getD j d = l.getD j d := by
  induction l generalizing i j with
  | nil => rfl
  | cons x xs ih =>
    cases i with
    | zero =>
      cases j with
      | zero => exact absurd rfl h
      | succ m => rfl
    | succ n =>
      cases j with
      | zero => rfl
      | succ m => exact ih n m (by omega)

/-- An in-range defaulted read is a member of the list. -/
theorem getD_mem {α : Type} (l : List α) (i : ℕ) (d : α) (h : i < l.length) :
    l.getD i d ∈ l := by
  induction l generalizing i with
  | nil => simp at h
  | cons x xs ih =>
    cases i with
    | zero => exact List.mem_cons_self _ _
    | succ n => exact List.mem_cons_of_mem _ (ih n (by simpa using h))

/-- Writing an in-grid tile and reading it back. -/
theorem tileD_setTile_self (world : World) (ty tx : ℤ) (v : ℕ)
    (hw : wellFormed world) (h : inGrid tx ty) :
    tileD (setTile world ty tx v) ty tx = v := by
  obtain ⟨hlen, hrows⟩ := hw
  obtain ⟨hx0, hxW, hy0, hyH⟩ := h
  simp only [WORLD_WIDTH, WORLD_HEIGHT] at hxW hyH
  have hyl : ty.toNat < world.length := by omega
  have hrow : (world.getD ty.toNat []).length = 100 := hrows _ (getD_mem _ _ _ hyl)
  have hxl : tx.toNat < (world.getD ty.toNat []).length := by omega
  unfold tileD setTile
  rw [getD_set_self world ty.toNat _ [] hyl]
  exact getD_set_self _ _ _ _ hxl

/-- Writing one in-grid tile leaves every other in-grid tile unchanged. -/
theorem tileD_setTile_ne (world : World) (ty tx y x : ℤ) (v : ℕ)
    (hw : wellFormed world) (ht : inGrid tx ty) (h2 : inGrid x y)
    (hne : ¬(y = ty ∧ x = tx)) :
    tileD (setTile world ty tx v) y x = tileD world y x := by
  obtain ⟨hlen, hrows⟩ := hw
  obtain ⟨htx0, htxW, hty0, htyH⟩ := ht
  obtain ⟨hx0, hxW, hy0, hyH⟩ := h2
  simp only [WORLD_WIDTH, WORLD_HEIGHT] at htxW htyH hxW hyH
  unfold tileD setTile
  by_cases hyy : y.toNat = ty.toNat
  · have hy' : y = ty := by omega
    have hx' : x ≠ tx := fun hc => hne ⟨hy', hc⟩
    have hxx : tx.toNat ≠ x.toNat := by omega
    have hyl : ty.toNat < world.length := by omega
    rw [hyy, getD_set_self world ty.toNat _ [] hyl]
    exact getD_set_ne _ _ _ _ _ hxx
  · rw [getD_set_ne world ty.toNat y.toNat _ [] fun hc => hyy hc.symm]

/-- setTile preserves the grid dimensions. -/
theorem wellFormed_setTile (world : World) (ty tx : ℤ) (v : ℕ)
    (hw : wellFormed world) (h : inGrid tx ty) :
    wellFormed (setTile world ty tx v) := by
  obtain ⟨hlen, hrows⟩ := hw
  obtain ⟨hx0, hxW, hy0, hyH⟩ := h
  simp only [WORLD_WIDTH, WORLD_HEIGHT] at hxW hyH
  have hyl : ty.toNat < world.length := by omega
  refine ⟨by rw [setTile, List.length_set, hlen], ?_⟩
  intro row hr
  rw [setTile] at hr
  rcases List.mem_or_eq_of_mem_set hr with hmem | heq
  · exact hrows _ hmem
  · rw [heq, List.length_set]
    exact hrows _ (getD_mem _ _ _ hyl)

/-! ## C7: the vertical collision pass of Player.update (lines 183-186)

Player.update moves the rectangle by int(vel_y), clears on_ground and
calls _resolve_collisions with dx = 0, dy = vel_y. -/

/-- Vertical phase of Player.update: rect.y += int(vel_y); on_ground = False;
resolve with dx = 0, dy = vel_y. -/
def player_vertical_pass (world : World) (b : Body) : Body :=
  resolve_collisions world 0 b.vel_y
    { b with rect := { b.rect with y := b.rect.y + pyInt b.vel_y }, on_ground := false }

/-- With dy > 0 and dx = 0, one corner iteration either snaps the bottom to
the corner tile's top edge, zeroing vel_y and setting on_ground, or does
nothing. -/
theorem resolveStep_pos_dy (world : World) (dy : ℚ) (hdy : 0 < dy) (b : Body) (c : ℤ × ℤ) :
    resolveStep world 0 dy b c =
      if solidB world (c.1.fdiv TILE_SIZE) (c.2.fdiv TILE_SIZE) then
        { b with rect := b.rect.setBottom (c.2.fdiv TILE_SIZE * TILE_SIZE),
                 vel_y := 0, on_ground := true }
      else b := by
  have h0 : ¬ (0:ℚ) < 0 := lt_irrefl 0
  by_cases hs : solidB world (c.1.fdiv TILE_SIZE) (c.2.fdiv TILE_SIZE)
  · simp [resolveStep, hs, hdy, h0]
  · simp [resolveStep, hs]

/-- A corner loop over corners whose tiles are all non-solid does nothing. -/
theorem foldl_resolveStep_no_solid (world : World) (dx dy : ℚ) :
    ∀ (cs : List (ℤ × ℤ)) (b : Body),
      (∀ c ∈ cs, solidB world (c.1.fdiv TILE_SIZE) (c.2.fdiv TILE_SIZE) = false) →
      cs.foldl (resolveStep world dx dy) b = b := by
  intro cs
  induction cs with
  | nil => intro b _; rfl
  | cons c cs ih =>
    intro b h
    have hc := h c (List.mem_cons_self _ _)
    have hstep : resolveStep world dx dy b c = b := by
      simp [resolveStep, hc]
    rw [List.foldl_cons, hstep]
    exact ih b fun c' hc' => h c' (List.mem_cons_of_mem _ hc')

/-- Downward resolution over any corner list with at least one solid corner
ends on the ground with zero vertical velocity, the bottom edge flush with
a solid corner's tile top edge. -/
theorem foldl_resolveStep_snap (world : World) (dy : ℚ) (hdy : 0 < dy) :
    ∀ (cs : List (ℤ × ℤ)) (b : Body),
      (∃ c ∈ cs, solidB world (c.1.fdiv TILE_SIZE) (c.2.fdiv TILE_SIZE) = true) →
      (cs.foldl (resolveStep world 0 dy) b).on_ground = true ∧
      (cs.foldl (resolveStep world 0 dy) b).vel_y = 0 ∧
      ∃ c ∈ cs, solidB world (c.1.fdiv TILE_SIZE) (c.2.fdiv TILE_SIZE) = true ∧
        Rect.bottom (cs.foldl (resolveStep world 0 dy) b).rect =
          c.2.fdiv TILE_SIZE * TILE_SIZE := by
  intro cs
  induction cs with
  | nil => intro b h; simp at h
  | cons c cs ih =>
    intro b hex
    rw [List.foldl_cons]
    by_cases hex' : ∃ c' ∈ cs, solidB world (c'.1.fdiv TILE_SIZE) (c'.2.fdiv TILE_SIZE) = true
    · obtain ⟨hg, hv, c', hmem, hsol, hbot⟩ := ih (resolveStep world 0 dy b c) hex'
      exact ⟨hg, hv, c', List.mem_cons_of_mem _ hmem, hsol, hbot⟩
    · have hcsol : solidB world (c.1.fdiv TILE_SIZE) (c.2.fdiv TILE_SIZE) = true := by
        obtain ⟨c0, hm, hs⟩ := hex
        rcases List.mem_cons.mp hm with rfl | hm'
        · exact hs
        · exact absurd ⟨c0, hm', hs⟩ hex'
      have htail : ∀ c' ∈ cs,
          solidB world (c'.1.fdiv TILE_SIZE) (c'.2.fdiv TILE_SIZE) = false := by
        intro c' hm'
        by_contra hne
        exact hex' ⟨c', hm', by simpa using hne⟩
      rw [foldl_resolveStep_no_solid world 0 dy cs _ htail,
        resolveStep_pos_dy world dy hdy b c, if_pos hcsol]
      refine ⟨rfl, rfl, c, List.mem_cons_self _ _, hcsol, ?_⟩
      simp only [Rect.bottom, Rect.setBottom]
      omega

/-- C7: when the vertical pass resolves downward motion (vel_y > 0) against
some solid corner tile, the body ends the pass with on_ground = true,
vel_y = 0, and its bottom edge exactly at a colliding tile's top edge
tile_y * TILE_SIZE — no sub-pixel penetration. -/
theorem C7_fall_lands_flush (world : World) (b : Body)
    (hdy : 0 < b.vel_y)
    (hsolid : ∃ c ∈ Rect.corners { b.rect with y := b.rect.y + pyInt b.vel_y },
      solidB world (c.1.fdiv TILE_SIZE) (c.2.fdiv TILE_SIZE) = true) :
    (player_vertical_pass world b).on_ground = true ∧
    (player_vertical_pass world b).vel_y = 0 ∧
    ∃ c ∈ Rect.corners { b.rect with y := b.rect.y + pyInt b.vel_y },
      solidB world (c.1.fdiv TILE_SIZE) (c.2.fdiv TILE_SIZE) = true ∧
      Rect.bottom (player_vertical_pass world b).rect =
        c.2.fdiv TILE_SIZE * TILE_SIZE := by
  exact foldl_resolveStep_snap world b.vel_y hdy
    (Rect.corners { b.rect with y := b.rect.y + pyInt b.vel_y })
    { b with rect := { b.rect with y := b.rect.y + pyInt b.vel_y }, on_ground := false }
    hsolid

/-- Witness for C7: a body of size 32x48 at y = 940 falling with vel_y = 5
onto the solid row 31 (a world of air with one all-stone row) ends the
vertical pass on the ground with vel_y = 0, bottom flush at 31 * 32. -/
theorem C7_fall_lands_flush_witness :
    (player_vertical_pass
        (List.replicate 31 (List.replicate 100 0) ++ [List.replicate 100 3] ++
          List.replicate 28 (List.replicate 100 0))
        ⟨⟨64, 940, 32, 48⟩, 0, 5, false⟩).on_ground = true ∧
    (player_vertical_pass
        (List.replicate 31 (List.replicate 100 0) ++ [List.replicate 100 3] ++
          List.replicate 28 (List.replicate 100 0))
        ⟨⟨64, 940, 32, 48⟩, 0, 5, false⟩).vel_y = 0 ∧
    ∃ c ∈ Rect.corners { (⟨64, 940, 32, 48⟩ : Rect) with y := 940 + pyInt 5 },
      solidB (List.replicate 31 (List.replicate 100 0) ++ [List.replicate 100 3] ++
          List.replicate 28 (List.replicate 100 0))
        (c.1.fdiv TILE_SIZE) (c.2.fdiv TILE_SIZE) = true ∧
      Rect.bottom (player_vertical_pass
        (List.replicate 31 (List.replicate 100 0) ++ [List.replicate 100 3] ++
          List.replicate 28 (List.replicate 100 0))
        ⟨⟨64, 940, 32, 48⟩, 0, 5, false⟩).rect = c.2.fdiv TILE_SIZE * TILE_SIZE :=
  C7_fall_lands_flush
    (List.replicate 31 (List.replicate 100 0) ++ [List.replicate 100 3] ++
      List.replicate 28 (List.replicate 100 0))
    ⟨⟨64, 940, 32, 48⟩, 0, 5, false⟩ (by norm_num) (by decide)

/-! ## C9: grid reads of the collision resolver are bounds-safe -/

/-- In-range list access agrees with the defaulted access. -/
theorem get?_eq_getD {α : Type} (l : List α) (i : ℕ) (d : α) (h : i < l.length) :
    l.get? i = some (l.getD i d) := by
  induction l generalizing i with
  | nil => simp at h
  | cons x xs ih =>
    cases i with
    | zero => rfl
    | succ n => exact ih n (by simpa using h)

/-- On a well-formed 100x60 grid the checked solidity query never faults and
agrees with the total one. -/
theorem solidAt?_eq (world : World) (tx ty : ℤ) (hw : wellFormed world) :
    solidAt? world tx ty = some (solidB world tx ty) := by
  obtain ⟨hlen, hrows⟩ := hw
  by_cases hg : inGrid tx ty
  · have hyl : ty.toNat < world.length := by
      obtain ⟨_, _, hy0, hyH⟩ := hg
      simp only [WORLD_HEIGHT] at hyH
      omega
    have hrow : (world.getD ty.toNat []).length = 100 := hrows _ (getD_mem _ _ _ hyl)
    have hxl : tx.toNat < (world.getD ty.toNat []).length := by
      obtain ⟨hx0, hxW, _, _⟩ := hg
      simp only [WORLD_WIDTH] at hxW
      omega
    unfold solidAt? solidB tileD
    rw [if_pos hg, if_pos hg, get?_eq_getD world ty.toNat [] hyl]
    simp only [Option.some_bind]
    rw [get?_eq_getD (world.getD ty.toNat []) tx.toNat 0 hxl]
    simp only [Option.map_some']
  · simp [solidAt?, solidB, hg]

/-- One checked corner iteration agrees with the pure one on a well-formed
grid — it never faults. -/
theorem resolveStepM_eq (world : World) (hw : wellFormed world) (dx dy : ℚ)
    (b : Body) (c : ℤ × ℤ) :
    resolveStepM world dx dy b c = some (resolveStep world dx dy b c) := by
  simp only [resolveStepM, resolveStep]
  rw [solidAt?_eq world (c.1.fdiv TILE_SIZE) (c.2.fdiv TILE_SIZE) hw]
  cases hb : solidB world (c.1.fdiv TILE_SIZE) (c.2.fdiv TILE_SIZE) <;> simp

/-- The checked corner loop agrees with the pure one on a well-formed grid. -/
theorem foldlM_resolveStepM (world : World) (hw : wellFormed world) (dx dy : ℚ) :
    ∀ (cs : List (ℤ × ℤ)) (b : Body),
      cs.foldlM (resolveStepM world dx dy) b =
        some (cs.foldl (resolveStep world dx dy) b) := by
  intro cs
  induction cs with
  | nil => intro b; rfl
  | cons c cs ih =>
    intro b
    rw [List.foldlM_cons, resolveStepM_eq world hw dx dy b c]
    simp only [Option.bind_eq_bind, Option.some_bind]
    rw [List.foldl_cons]
    exact ih _

/-- C9: the collision-resolution corner loop reads the grid only inside
[0, WORLD_WIDTH) x [0, WORLD_HEIGHT): on a well-formed grid the checked
loop never faults and agrees with the total one; an out-of-range solidity
query answers "not solid" without fault; and a corner mapping to an
out-of-range tile triggers no snapping at all. -/
theorem C9_out_of_range_safety (world : World) (dx dy : ℚ) (b : Body) :
    (wellFormed world →
      resolve_collisionsM world dx dy b = some (resolve_collisions world dx dy b)) ∧
    (∀ tx ty : ℤ, ¬ inGrid tx ty → solidAt? world tx ty = some false) ∧
    (∀ (b' : Body) (c : ℤ × ℤ), ¬ inGrid (c.1.fdiv TILE_SIZE) (c.2.fdiv TILE_SIZE) →
      resolveStep world dx dy b' c = b') := by
  refine ⟨fun hw => ?_, fun tx ty h => ?_, fun b' c h => ?_⟩
  · unfold resolve_collisionsM resolve_collisions
    exact foldlM_resolveStepM world hw dx dy _ b
  · unfold solidAt?
    rw [if_neg h]
  · have hs : solidB world (c.1.fdiv TILE_SIZE) (c.2.fdiv TILE_SIZE) = false := by
      unfold solidB
      rw [if_neg h]
    simp [resolveStep, hs]

/-- Witness for C9: on a concrete well-formed all-air grid, the checked loop
agrees with the pure one; a query at (-1, 5) answers non-solid; a corner at
pixel (-100, 100) triggers no snapping. -/
theorem C9_out_of_range_safety_witness :
    resolve_collisionsM (List.replicate 60 (List.replicate 100 0)) 0 3
        ⟨⟨-100, 100, 32, 48⟩, 0, 3, false⟩ =
      some (resolve_collisions (List.replicate 60 (List.replicate 100 0)) 0 3
        ⟨⟨-100, 100, 32, 48⟩, 0, 3, false⟩) ∧
    solidAt? (List.replicate 60 (List.replicate 100 0)) (-1) 5 = some false ∧
    resolveStep (List.replicate 60 (List.replicate 100 0)) 0 3
        ⟨⟨-100, 100, 32, 48⟩, 0, 3, false⟩ (-100, 100) =
      ⟨⟨-100, 100, 32, 48⟩, 0, 3, false⟩ :=
  ⟨(C9_out_of_range_safety (List.replicate 60 (List.replicate 100 0)) 0 3
      ⟨⟨-100, 100, 32, 48⟩, 0, 3, false⟩).1 ⟨by decide, by decide⟩,
   (C9_out_of_range_safety (List.replicate 60 (List.replicate 100 0)) 0 3
      ⟨⟨-100, 100, 32, 48⟩, 0, 3, false⟩).2.1 (-1) 5 (by decide),
   (C9_out_of_range_safety (List.replicate 60 (List.replicate 100 0)) 0 3
      ⟨⟨-100, 100, 32, 48⟩, 0, 3, false⟩).2.2
      ⟨⟨-100, 100, 32, 48⟩, 0, 3, false⟩ (-100, 100) (by decide)⟩

/-! ## Inventory and the Player (game.py lines 129-152) -/

/-- The four collectible resources, keys of the inventory dict. -/
inductive Item where
  | dirt
  | stone
  | ore
  | wood
  deriving DecidableEq

/-- Per-resource inventory counts; Python dict with keys dirt/stone/ore/wood. -/
structure Inventory where
  dirt : ℕ
  stone : ℕ
  ore : ℕ
  wood : ℕ
  deriving DecidableEq

/-- Dictionary lookup inventory[item]. -/
def invCount (inv : Inventory) : Item → ℕ
  | .dirt => inv.dirt
  | .stone => inv.stone
  | .ore => inv.ore
  | .wood => inv.wood

/-- inventory[item] += 1. -/
def invAdd (inv : Inventory) : Item → Inventory
  | .dirt => { inv with dirt := inv.dirt + 1 }
  | .stone => { inv with stone := inv.stone + 1 }
  | .ore => { inv with ore := inv.ore + 1 }
  | .wood => { inv with wood := inv.wood + 1 }

/-- inventory[item] -= 1 (only reached with a positive count). -/
def invSub (inv : Inventory) : Item → Inventory
  | .dirt => { inv with dirt := inv.dirt - 1 }
  | .stone => { inv with stone := inv.stone - 1 }
  | .ore => { inv with ore := inv.ore - 1 }
  | .wood => { inv with wood := inv.wood - 1 }

/-- Resource a mined tile yields: tiles 1 and 2 (dirt, grass) yield dirt,
3 stone, 4 ore, 5 wood (mine_block's elif chain). -/
def mineItem (tile : ℕ) : Item :=
  if tile = 3 then .stone else if tile = 4 then .ore else if tile = 5 then .wood else .dirt

/-- Tile id written when placing the selected resource (place_block's
elif chain): dirt 1, stone 3, ore 4, wood 5. -/
def itemTile : Item → ℕ
  | .dirt => 1
  | .stone => 3
  | .ore => 4
  | .wood => 5

/-- Player state used by the mining, placing and contact-damage code. -/
structure Player where
  rect : Rect
  vel_x : ℚ
  health : ℤ
  hurt_cooldown : ℕ
  inv : Inventory
  selected : Item
  deriving DecidableEq

/-! ## Mining (Player.mine_block, lines 222-249)

The source receives a mouse position and camera and converts them to a
world tile coordinate by (mouse + camera) // TILE_SIZE; the operation is
embedded directly over that target tile coordinate (world_x, world_y),
matching the spec's interface mine(grid, worldX, worldY). -/

/-- Reach check of mine_block line 231: the target is farther than 4 tiles
from the player's tile position (centre // TILE_SIZE) in either axis. -/
def mineFar (p : Player) (world_x world_y : ℤ) : Prop :=
  4 < |world_x - (Rect.centerx p.rect).fdiv TILE_SIZE| ∨
  4 < |world_y - (Rect.centery p.rect).fdiv TILE_SIZE|

instance (p : Player) (world_x world_y : ℤ) : Decidable (mineFar p world_x world_y) := by
  unfold mineFar; infer_instance

/-- Inventory update of mine_block's elif chain (lines 238-247); a tile id
outside 1..5 falls through the chain and adds nothing. -/
def mineInv (inv : Inventory) (tile : ℕ) : Inventory :=
  if tile = 1 then { inv with dirt := inv.dirt + 1 }
  else if tile = 2 then { inv with dirt := inv.dirt + 1 }
  else if tile = 3 then { inv with stone := inv.stone + 1 }
  else if tile = 4 then { inv with ore := inv.ore + 1 }
  else if tile = 5 then { inv with wood := inv.wood + 1 }
  else inv

/-- Player.mine_block: early return when out of reach; then under the
bounds guard, mine only a non-air tile above the bedrock row, adding the
yield to the inventory and clearing the tile. -/
def mine_block (world : World) (p : Player) (world_x world_y : ℤ) : World × Inventory :=
  if mineFar p world_x world_y then (world, p.inv)
  else if inGrid world_x world_y then
    if tileD world world_y world_x ≠ 0 ∧ world_y < WORLD_HEIGHT - 1 then
      (setTile world world_y world_x 0, mineInv p.inv (tileD world world_y world_x))
    else (world, p.inv)
  else (world, p.inv)

/-! ## Placing (Player.place_block, lines 251-276) -/

/-- Pixel rectangle of a tile (line 263). -/
def tileRect (world_x world_y : ℤ) : Rect :=
  ⟨world_x * TILE_SIZE, world_y * TILE_SIZE, TILE_SIZE, TILE_SIZE⟩

/-- Player.place_block: early return with an empty selected count; then
under the bounds guard, place only into air not overlapping the player,
writing the selected resource's tile id and decrementing its count. -/
def place_block (world : World) (p : Player) (world_x world_y : ℤ) : World × Inventory :=
  if invCount p.inv p.selected = 0 then (world, p.inv)
  else if inGrid world_x world_y then
    if tileD world world_y world_x = 0 then
      if colliderect p.rect (tileRect world_x world_y) then (world, p.inv)
      else (setTile world world_y world_x (itemTile p.selected), invSub p.inv p.selected)
    else (world, p.inv)
  else (world, p.inv)

/-- mine_block in its success configuration. -/
theorem mine_block_success (world : World) (p : Player) (world_x world_y : ℤ)
    (hnf : ¬ mineFar p world_x world_y) (hg : inGrid world_x world_y)
    (hcode : tileD world world_y world_x ≠ 0 ∧ world_y < WORLD_HEIGHT - 1) :
    mine_block world p world_x world_y =
      (setTile world world_y world_x 0, mineInv p.inv (tileD world world_y world_x)) := by
  unfold mine_block
  rw [if_neg hnf, if_pos hg, if_pos hcode]

/-- place_block in its success configuration. -/
theorem place_block_success (world : World) (p : Player) (world_x world_y : ℤ)
    (hc : invCount p.inv p.selected ≠ 0) (hg : inGrid world_x world_y)
    (ha : tileD world world_y world_x = 0)
    (hnc : ¬ colliderect p.rect (tileRect world_x world_y)) :
    place_block world p world_x world_y =
      (setTile world world_y world_x (itemTile p.selected), invSub p.inv p.selected) := by
  unfold place_block
  rw [if_neg hc, if_pos hg, if_pos ha, if_neg hnc]

/-- On a valid tile id, the mine inventory chain adds one to exactly the
mapped resource count. -/
theorem mineInv_eq_invAdd (inv : Inventory) (tile : ℕ)
    (h0 : tile ≠ 0) (h5 : tile ≤ 5) :
    mineInv inv tile = invAdd inv (mineItem tile) := by
  have : tile = 1 ∨ tile = 2 ∨ tile = 3 ∨ tile = 4 ∨ tile = 5 := by omega
  rcases this with h | h | h | h | h <;> subst h <;> rfl

/-- C4: the mine operation is a silent no-op whenever the target is farther
than 4 tiles in either axis from the player's tile position, out of grid
bounds, air, or in the bedrock bottom row; otherwise it adds exactly one
to the mapped resource count (dirt and grass yield dirt, stone stone, ore
ore, wood wood) and sets exactly the target tile to air. -/
theorem C4_mine_guard_and_effect (world : World) (p : Player) (world_x world_y : ℤ) :
    ((mineFar p world_x world_y ∨ ¬ inGrid world_x world_y ∨
        tileD world world_y world_x = 0 ∨ world_y = WORLD_HEIGHT - 1) →
      mine_block world p world_x world_y = (world, p.inv)) ∧
    (¬ mineFar p world_x world_y → inGrid world_x world_y →
      tileD world world_y world_x ≠ 0 → world_y ≠ WORLD_HEIGHT - 1 →
      tileD world world_y world_x ≤ 5 → wellFormed world →
      mine_block world p world_x world_y =
        (setTile world world_y world_x 0,
          invAdd p.inv (mineItem (tileD world world_y world_x))) ∧
      tileD (mine_block world p world_x world_y).1 world_y world_x = 0 ∧
      ∀ y x : ℤ, inGrid x y → ¬(y = world_y ∧ x = world_x) →
        tileD (mine_block world p world_x world_y).1 y x = tileD world y x) := by
  constructor
  · intro hcond
    unfold mine_block
    by_cases hf : mineFar p world_x world_y
    · rw [if_pos hf]
    · rw [if_neg hf]
      by_cases hg : inGrid world_x world_y
      · rw [if_pos hg, if_neg]
        rintro ⟨hne, hlt⟩
        rcases hcond with h | h | h | h
        · exact hf h
        · exact h hg
        · exact hne h
        · rw [h] at hlt; exact absurd hlt (lt_irrefl _)
      · rw [if_neg hg]
  · intro hnf hg hne hl h5 hw
    have hylt : world_y < WORLD_HEIGHT - 1 := by
      obtain ⟨_, _, _, hyH⟩ := hg
      simp only [WORLD_HEIGHT] at *
      omega
    have heq := mine_block_success world p world_x world_y hnf hg ⟨hne, hylt⟩
    refine ⟨?_, ?_, ?_⟩
    · rw [heq, mineInv_eq_invAdd p.inv _ hne h5]
    · rw [heq]
      exact tileD_setTile_self world world_y world_x 0 hw hg
    · intro y x h2 hne2
      rw [heq]
      exact tileD_setTile_ne world world_y world_x y x 0 hw hg h2 hne2

/-- Witness for C4: in an all-stone well-formed world, a player standing at
tile (5, 31) mines tile (5, 31): the tile becomes air and the stone count
becomes 1. -/
theorem C4_mine_guard_and_effect_witness :
    mine_block (List.replicate 60 (List.replicate 100 3))
        ⟨⟨150, 992, 32, 48⟩, 0, 100, 0, ⟨0, 0, 0, 0⟩, Item.dirt⟩ 5 31 =
      (setTile (List.replicate 60 (List.replicate 100 3)) 31 5 0, ⟨0, 1, 0, 0⟩) := by
  have h := (C4_mine_guard_and_effect (List.replicate 60 (List.replicate 100 3))
      ⟨⟨150, 992, 32, 48⟩, 0, 100, 0, ⟨0, 0, 0, 0⟩, Item.dirt⟩ 5 31).2
      (by decide) (by decide) (by decide) (by decide) (by decide)
      ⟨by decide, by decide⟩
  rw [h.1]
  rfl

/-- C5: the place operation is a silent no-op whenever the selected count
is zero, the target is out of grid bounds, the target is not air, or the
tile rectangle overlaps the player's rectangle; otherwise it writes the
selected resource's tile id and decrements exactly that count by 1. -/
theorem C5_place_guard_and_effect (world : World) (p : Player) (world_x world_y : ℤ) :
    ((invCount p.inv p.selected = 0 ∨ ¬ inGrid world_x world_y ∨
        tileD world world_y world_x ≠ 0 ∨
        colliderect p.rect (tileRect world_x world_y)) →
      place_block world p world_x world_y = (world, p.inv)) ∧
    (invCount p.inv p.selected ≠ 0 → inGrid world_x world_y →
      tileD world world_y world_x = 0 →
      ¬ colliderect p.rect (tileRect world_x world_y) →
      place_block world p world_x world_y =
        (setTile world world_y world_x (itemTile p.selected),
          invSub p.inv p.selected) ∧
      invCount (place_block world p world_x world_y).2 p.selected + 1 =
        invCount p.inv p.selected ∧
      ∀ it : Item, it ≠ p.selected →
        invCount (place_block world p world_x world_y).2 it = invCount p.inv it) := by
  constructor
  · intro hcond
    unfold place_block
    by_cases hc : invCount p.inv p.selected = 0
    · rw [if_pos hc]
    · rw [if_neg hc]
      by_cases hg : inGrid world_x world_y
      · rw [if_pos hg]
        by_cases ha : tileD world world_y world_x = 0
        · rw [if_pos ha, if_pos]
          rcases hcond with h | h | h | h
          · exact absurd h hc
          · exact absurd hg h
          · exact absurd ha h
          · exact h
        · rw [if_neg ha]
      · rw [if_neg hg]
  · intro hc hg ha hnc
    have heq := place_block_success world p world_x world_y hc hg ha hnc
    refine ⟨heq, ?_, ?_⟩
    · rw [heq]
      cases hs : p.selected <;> simp_all [invCount, invSub] <;> omega
    · intro it hit
      rw [heq]
      cases hs : p.selected <;> cases it <;> simp_all [invCount, invSub]

/-- Witness for C5: in an all-air well-formed world, a player holding two
dirt places dirt at tile (20, 31), writing tile id 1 and dropping the dirt
count to 1. -/
theorem C5_place_guard_and_effect_witness :
    place_block (List.replicate 60 (List.replicate 100 0))
        ⟨⟨150, 992, 32, 48⟩, 0, 100, 0, ⟨2, 0, 0, 0⟩, Item.dirt⟩ 20 31 =
      (setTile (List.replicate 60 (List.replicate 100 0)) 31 20 1, ⟨1, 0, 0, 0⟩) := by
  have h := (C5_place_guard_and_effect (List.replicate 60 (List.replicate 100 0))
      ⟨⟨150, 992, 32, 48⟩, 0, 100, 0, ⟨2, 0, 0, 0⟩, Item.dirt⟩ 20 31).2
      (by decide) (by decide) (by decide) (by decide)
  rw [h.1]
  rfl

/-- C6: mining a stone tile and then, with stone selected, placing at the
same now-air coordinate (the placement succeeding, i.e. the tile rectangle
does not overlap the player) restores tile id 3 at that coordinate and
returns the inventory to its pre-mine counts. -/
theorem C6_mine_place_roundtrip (world : World) (p : Player) (world_x world_y : ℤ)
    (hw : wellFormed world)
    (hnf : ¬ mineFar p world_x world_y) (hg : inGrid world_x world_y)
    (hstone : tileD world world_y world_x = 3) (hl : world_y ≠ WORLD_HEIGHT - 1)
    (hnc : ¬ colliderect p.rect (tileRect world_x world_y)) :
    tileD (place_block (mine_block world p world_x world_y).1
        { p with inv := (mine_block world p world_x world_y).2,
                 selected := Item.stone } world_x world_y).1 world_y world_x =
      tileD world world_y world_x ∧
    (place_block (mine_block world p world_x world_y).1
        { p with inv := (mine_block world p world_x world_y).2,
                 selected := Item.stone } world_x world_y).2 = p.inv := by
  have hylt : world_y < WORLD_HEIGHT - 1 := by
    obtain ⟨_, _, _, hyH⟩ := hg
    simp only [WORLD_HEIGHT] at *
    omega
  have hm := mine_block_success world p world_x world_y hnf hg
    ⟨by rw [hstone]; decide, hylt⟩
  have hw1 : wellFormed (setTile world world_y world_x 0) :=
    wellFormed_setTile world world_y world_x 0 hw hg
  have ht1 : tileD (setTile world world_y world_x 0) world_y world_x = 0 :=
    tileD_setTile_self world world_y world_x 0 hw hg
  have hcnt : invCount (mineInv p.inv (tileD world world_y world_x)) Item.stone ≠ 0 := by
    rw [hstone]
    simp [mineInv, invCount]
  have hp := place_block_success (setTile world world_y world_x 0)
    { p with inv := mineInv p.inv (tileD world world_y world_x), selected := Item.stone }
    world_x world_y hcnt hg ht1 hnc
  rw [hm]
  simp only at hp
  rw [hp]
  constructor
  · rw [hstone]
    exact tileD_setTile_self _ world_y world_x _ hw1 hg
  · rw [hstone]
    cases p.inv
    simp [mineInv, invSub, itemTile]

/-- Witness for C6: the concrete mine-then-place round trip at tile (7, 31)
of an all-stone world restores the stone tile and the empty inventory. -/
theorem C6_mine_place_roundtrip_witness :
    tileD (place_block (mine_block (List.replicate 60 (List.replicate 100 3))
        ⟨⟨150, 992, 32, 48⟩, 0, 100, 0, ⟨0, 0, 0, 0⟩, Item.dirt⟩ 7 31).1
        { (⟨⟨150, 992, 32, 48⟩, 0, 100, 0, ⟨0, 0, 0, 0⟩, Item.dirt⟩ : Player) with
          inv := (mine_block (List.replicate 60 (List.replicate 100 3))
            ⟨⟨150, 992, 32, 48⟩, 0, 100, 0, ⟨0, 0, 0, 0⟩, Item.dirt⟩ 7 31).2,
          selected := Item.stone } 7 31).1 31 7 =
      tileD (List.replicate 60 (List.replicate 100 3)) 31 7 ∧
    (place_block (mine_block (List.replicate 60 (List.replicate 100 3))
        ⟨⟨150, 992, 32, 48⟩, 0, 100, 0, ⟨0, 0, 0, 0⟩, Item.dirt⟩ 7 31).1
        { (⟨⟨150, 992, 32, 48⟩, 0, 100, 0, ⟨0, 0, 0, 0⟩, Item.dirt⟩ : Player) with
          inv := (mine_block (List.replicate 60 (List.replicate 100 3))
            ⟨⟨150, 992, 32, 48⟩, 0, 100, 0, ⟨0, 0, 0, 0⟩, Item.dirt⟩ 7 31).2,
          selected := Item.stone } 7 31).2 = (⟨0, 0, 0, 0⟩ : Inventory) :=
  C6_mine_place_roundtrip (List.replicate 60 (List.replicate 100 3))
    ⟨⟨150, 992, 32, 48⟩, 0, 100, 0, ⟨0, 0, 0, 0⟩, Item.dirt⟩ 7 31
    ⟨by decide, by decide⟩ (by decide) (by decide) (by decide) (by decide)
    (by decide)

/-! ## C10: enemy contact damage (run_game lines 645-656)

Per enemy per tick: if the enemy's rectangle collides with the player's and
the hurt cooldown is zero, subtract 10 health, set the cooldown to 60 and
knock the player horizontally away by 2. -/

/-- The enemy-contact step of the main loop for one enemy rectangle. -/
def enemy_contact (p : Player) (enemyRect : Rect) : Player :=
  if colliderect enemyRect p.rect then
    if p.hurt_cooldown = 0 then
      { p with health := p.health - 10,
               hurt_cooldown := 60,
               vel_x := if Rect.centerx enemyRect < Rect.centerx p.rect
                        then p.vel_x + 2 else p.vel_x - 2 }
    else p
  else p

/-- C10: with overlap and zero cooldown, health drops by exactly 10, the
cooldown is set to 60 frames and the player is knocked horizontally by 2
away from the enemy; with positive cooldown, overlap changes nothing; and
without overlap nothing changes. -/
theorem C10_contact_damage_gated (p : Player) (enemyRect : Rect) :
    (colliderect enemyRect p.rect → p.hurt_cooldown = 0 →
      (enemy_contact p enemyRect).health = p.health - 10 ∧
      (enemy_contact p enemyRect).hurt_cooldown = 60 ∧
      (Rect.centerx enemyRect < Rect.centerx p.rect →
        (enemy_contact p enemyRect).vel_x = p.vel_x + 2) ∧
      (¬ Rect.centerx enemyRect < Rect.centerx p.rect →
        (enemy_contact p enemyRect).vel_x = p.vel_x - 2)) ∧
    (0 < p.hurt_cooldown → enemy_contact p enemyRect = p) ∧
    (¬ colliderect enemyRect p.rect → enemy_contact p enemyRect = p) := by
  refine ⟨fun hc h0 => ?_, fun hcd => ?_, fun hnc => ?_⟩
  · unfold enemy_contact
    rw [if_pos hc, if_pos h0]
    refine ⟨rfl, rfl, fun hlt => ?_, fun hge => ?_⟩
    · simp [if_pos hlt]
    · simp [if_neg hge]
  · unfold enemy_contact
    by_cases hc : colliderect enemyRect p.rect
    · rw [if_pos hc, if_neg (by omega)]
    · rw [if_neg hc]
  · unfold enemy_contact
    rw [if_neg hnc]

/-- Witness for C10: a concrete overlapping enemy to the left of a player
with zero cooldown deals 10 damage, sets the 60-frame cooldown and knocks
the player to the right. -/
theorem C10_contact_damage_gated_witness :
    (enemy_contact ⟨⟨100, 100, 32, 48⟩, 0, 100, 0, ⟨0, 0, 0, 0⟩, Item.dirt⟩
        ⟨90, 100, 32, 48⟩).health = 90 ∧
    (enemy_contact ⟨⟨100, 100, 32, 48⟩, 0, 100, 0, ⟨0, 0, 0, 0⟩, Item.dirt⟩
        ⟨90, 100, 32, 48⟩).hurt_cooldown = 60 ∧
    (enemy_contact ⟨⟨100, 100, 32, 48⟩, 0, 100, 0, ⟨0, 0, 0, 0⟩, Item.dirt⟩
        ⟨90, 100, 32, 48⟩).vel_x = 2 := by
  have h := (C10_contact_damage_gated
      ⟨⟨100, 100, 32, 48⟩, 0, 100, 0, ⟨0, 0, 0, 0⟩, Item.dirt⟩
      ⟨90, 100, 32, 48⟩).1 (by decide) rfl
  refine ⟨by rw [h.1]; norm_num, h.2.1, ?_⟩
  have := h.2.2.1 (by decide)
  rw [this]
  norm_num

/-! ## C1: day/night brightness (run_game lines 592-614)

run_game computes t = time_of_day / DAY_LENGTH and
brightness = 0.5 + 0.5 * (1 - abs(0.5 - t) * 2), then is_night =
brightness < 0.5 gates enemy spawning.  time_of_day stays in
[0, DAY_LENGTH) because it wraps to 0 on reaching DAY_LENGTH. -/

/-- Brightness formula of lines 597-599 over exact rationals. -/
def brightness (time_of_day : ℕ) : ℚ :=
  1/2 + 1/2 * (1 - |1/2 - (time_of_day : ℚ) / (DAY_LENGTH : ℚ)| * 2)

/-- Night flag of line 610: brightness < 0.5. -/
def is_night (time_of_day : ℕ) : Bool :=
  decide (brightness time_of_day < 1/2)

/-- Within one day period the brightness never drops below one half. -/
theorem brightness_ge_half (time_of_day : ℕ) (h : time_of_day < DAY_LENGTH) :
    1/2 ≤ brightness time_of_day := by
  have hD : ((DAY_LENGTH : ℕ) : ℚ) = 1200 := by norm_num [DAY_LENGTH]
  unfold brightness
  rw [hD]
  have h0 : (0:ℚ) ≤ (time_of_day : ℚ) / 1200 := by positivity
  have h1 : (time_of_day : ℚ) / 1200 ≤ 1 := by
    rw [div_le_one (by norm_num)]
    have : (time_of_day : ℚ) < 1200 := by
      exact_mod_cast (by simpa [DAY_LENGTH] using h : time_of_day < 1200)
    linarith
  have habs : |1/2 - (time_of_day : ℚ) / 1200| ≤ 1/2 := by
    rw [abs_le]
    constructor <;> linarith
  linarith [habs]

/-- C1 (code evaluation at the spec's scenario): the implemented formula
yields brightness 1/2 at time_of_day = 0 and brightness 1 at
time_of_day = DAY_LENGTH / 2 — not 1.0 and 0.0 as specified — and the
night flag is false at both instants; indeed it is false at every
reachable time_of_day, so the night-spawn branch is unreachable. -/
theorem C1_brightness_eval :
    brightness 0 = 1/2 ∧
    brightness (DAY_LENGTH / 2) = 1 ∧
    is_night 0 = false ∧
    is_night (DAY_LENGTH / 2) = false ∧
    ∀ time_of_day : ℕ, is_night (time_of_day % DAY_LENGTH) = false := by
  have hnight : ∀ t : ℕ, t < DAY_LENGTH → is_night t = false := by
    intro t ht
    have hb := brightness_ge_half t ht
    simp only [is_night, decide_eq_false_iff_not, not_lt]
    linarith
  have h0 : brightness 0 = 1/2 := by
    unfold brightness
    rw [show |1/2 - ((0:ℕ) : ℚ) / (DAY_LENGTH : ℚ)| = 1/2 by
      norm_num [abs_of_nonneg]]
    norm_num
  have hhalf : brightness (DAY_LENGTH / 2) = 1 := by
    unfold brightness
    rw [show ((DAY_LENGTH / 2 : ℕ) : ℚ) = 600 by norm_num [DAY_LENGTH]]
    rw [show ((DAY_LENGTH : ℕ) : ℚ) = 1200 by norm_num [DAY_LENGTH]]
    norm_num
  refine ⟨h0, hhalf, hnight 0 (by norm_num [DAY_LENGTH]),
    hnight _ (by norm_num [DAY_LENGTH]), fun t => hnight _ ?_⟩
  exact Nat.mod_lt _ (by norm_num [DAY_LENGTH])

/-! ## C2: boss spawn bookkeeping (run_game lines 552-554, 629-641, 662-675)

The loop keeps boss = None, boss_spawned = False, boss_defeated = False.
Each tick, if not boss_spawned and the player's ore count reaches
BOSS_SPAWN_ORE_COUNT, a Boss is created and boss_spawned is set (and never
cleared anywhere); in the boss-update block boss_defeated is set once its
health is gone.  The ore count and the combat outcome are abstracted as
per-tick inputs. -/

/-- Boss bookkeeping flags of the main loop. -/
structure BossState where
  spawned : Bool
  present : Bool
  defeated : Bool
  deriving DecidableEq

/-- Initial state: boss = None, boss_spawned = False, boss_defeated = False. -/
def initBossState : BossState := ⟨false, false, false⟩

/-- Per-tick inputs: the player's ore count at the spawn check, and whether
this tick's combat brings the boss's health to zero or below. -/
structure BossInput where
  ore : ℕ
  bossDies : Bool

/-- Condition of line 629: not boss_spawned and ore >= BOSS_SPAWN_ORE_COUNT. -/
def bossSpawnNow (s : BossState) (i : BossInput) : Bool :=
  !s.spawned && decide (BOSS_SPAWN_ORE_COUNT ≤ i.ore)

/-- One tick of boss bookkeeping: the spawn check (lines 629-641), then the
defeat check of the boss-update block (lines 662-675). -/
def bossTick (s : BossState) (i : BossInput) : BossState :=
  let s1 := if bossSpawnNow s i then { s with spawned := true, present := true } else s
  if s1.present && !s1.defeated && i.bossDies then { s1 with defeated := true } else s1

/-- Number of live bosses: a single optional boss, active until defeated. -/
def activeBossCount (s : BossState) : ℕ :=
  if s.present && !s.defeated then 1 else 0

/-- Number of boss creations along a run of the loop. -/
def bossSpawnCount (s : BossState) : List BossInput → ℕ
  | [] => 0
  | i :: rest => (if bossSpawnNow s i then 1 else 0) + bossSpawnCount (bossTick s i) rest

/-- The spawned flag is never cleared by a tick. -/
theorem bossTick_spawned_mono (s : BossState) (i : BossInput)
    (h : s.spawned = true) : (bossTick s i).spawned = true := by
  unfold bossTick
  have h1 : bossSpawnNow s i = false := by simp [bossSpawnNow, h]
  rw [h1]
  simp only [Bool.false_eq_true, if_false]
  split <;> exact h

/-- A tick that spawns leaves the spawned flag set. -/
theorem bossTick_spawnNow_spawned (s : BossState) (i : BossInput)
    (hn : bossSpawnNow s i = true) : (bossTick s i).spawned = true := by
  unfold bossTick
  rw [hn]
  simp only [if_true]
  split <;> rfl

/-- Creation budget: one creation remains before the flag is set, none
after. -/
theorem bossSpawnCount_le (ins : List BossInput) : ∀ s : BossState,
    bossSpawnCount s ins ≤ if s.spawned = true then 0 else 1 := by
  induction ins with
  | nil =>
    intro s
    unfold bossSpawnCount
    split <;> omega
  | cons i rest ih =>
    intro s
    unfold bossSpawnCount
    by_cases hn : bossSpawnNow s i = true
    · have hs : s.spawned = false := by
        cases hb : s.spawned
        · rfl
        · exfalso
          rw [bossSpawnNow, hb] at hn
          simp at hn
      have h2 := ih (bossTick s i)
      rw [bossTick_spawnNow_spawned s i hn] at h2
      rw [hn, hs]
      simp only [if_true] at h2 ⊢
      simp at h2
      simp
      omega
    · have hb : bossSpawnNow s i = false := by
        cases hx : bossSpawnNow s i
        · rfl
        · exact absurd hx hn
      have h2 := ih (bossTick s i)
      rw [hb]
      simp only [Bool.false_eq_true, if_false, Nat.zero_add]
      cases hs : s.spawned
      · have h3 : bossSpawnCount (bossTick s i) rest ≤ 1 := by
          cases hnext : (bossTick s i).spawned <;> rw [hnext] at h2 <;> simp at h2 ⊢ <;> omega
        simp
        omega
      · have hnext := bossTick_spawned_mono s i hs
        rw [hnext] at h2
        simp at h2 ⊢
        omega

/-- C2: across any run of the loop from the initial state the boss is
created at most once; the spawned flag is never cleared; the active boss
count never exceeds one; and the only transition that takes the active
count from 0 to 1 is a spawn. -/
theorem C2_boss_spawns_at_most_once :
    (∀ ins : List BossInput, bossSpawnCount initBossState ins ≤ 1) ∧
    (∀ (s : BossState) (i : BossInput), s.spawned = true →
      (bossTick s i).spawned = true) ∧
    (∀ s : BossState, activeBossCount s ≤ 1) ∧
    (∀ (s : BossState) (i : BossInput), activeBossCount s = 0 →
      activeBossCount (bossTick s i) = 1 → bossSpawnNow s i = true) := by
  refine ⟨fun ins => ?_, bossTick_spawned_mono, fun s => ?_, fun s i h0 h1 => ?_⟩
  · have := bossSpawnCount_le ins initBossState
    simpa [initBossState] using this
  · unfold activeBossCount
    split <;> omega
  · by_contra hn
    have hb : bossSpawnNow s i = false := by
      cases hx : bossSpawnNow s i
      · rfl
      · exact absurd hx hn
    unfold bossTick at h1
    rw [hb] at h1
    simp only [Bool.false_eq_true, if_false] at h1
    by_cases hc : (s.present && !s.defeated && i.bossDies) = true
    · rw [if_pos hc] at h1
      simp [activeBossCount] at h1
    · rw [if_neg hc] at h1
      rw [h0] at h1
      exact absurd h1 (by omega)

/-- Witness for C2: a run whose ore count crosses the threshold and keeps
growing creates the boss exactly once, and a spawned flag stays set. -/
theorem C2_boss_spawns_at_most_once_witness :
    bossSpawnCount initBossState
      [⟨9, false⟩, ⟨10, false⟩, ⟨25, true⟩, ⟨40, false⟩] ≤ 1 ∧
    (bossTick ⟨true, true, false⟩ ⟨0, false⟩).spawned = true :=
  ⟨C2_boss_spawns_at_most_once.1 _,
   C2_boss_spawns_at_most_once.2.1 ⟨true, true, false⟩ ⟨0, false⟩ rfl⟩

/-! ## C3: terrain generation (generate_world, lines 100-117)

generate_world fills a height x width array of zeros column by column.
Each column perturbs current_height by random.choice([-1, 0, 1]), clamps
it to [base - 4, base + 4] with base = height // 2, then for rows from
current_height to height - 1 writes grass at the surface row, dirt while
row < current_height + 5, and otherwise ore (probability 0.05) or stone.
Rows above the surface keep their initial 0.  The random draws are
injected: deltas x is column x's perturbation and oreAt x y the outcome of
random.random() < 0.05 at the deep cell.  Every cell is written at most
once, so the produced array is embedded as the function from (y, x) to the
tile the loop leaves there; the embedding assumes the clamped surface row
is nonnegative, which holds whenever height >= 8 (all uses here). -/

/-- Clamped surface-height recurrence current_height of lines 105-106. -/
def surfaceHeights (base : ℤ) (deltas : ℕ → ℤ) : ℕ → ℤ
  | 0 => max (base - 4) (min (base + 4) (base + deltas 0))
  | x + 1 => max (base - 4) (min (base + 4) (surfaceHeights base deltas x + deltas (x + 1)))

/-- Tile written at row y of a column whose surface row is ch
(lines 107-116). -/
def columnTile (ch : ℤ) (oreCol : ℕ → Bool) (y : ℕ) : ℕ :=
  if (y : ℤ) < ch then 0
  else if (y : ℤ) = ch then 2
  else if (y : ℤ) < ch + 5 then 1
  else if oreCol y then 4 else 3

/-- generate_world as the function (y, x) to the tile id of world[y][x]. -/
def generate_world (width height : ℕ) (deltas : ℕ → ℤ) (oreAt : ℕ → ℕ → Bool) :
    ℕ → ℕ → ℕ :=
  fun y x =>
    if x < width ∧ y < height then
      columnTile (surfaceHeights ((height / 2 : ℕ) : ℤ) deltas x) (oreAt x) y
    else 0

/-- The per-column layering the claim asserts: a surface row r with air
strictly above, grass at r, dirt at exactly the next four rows, stone or
ore from r + 5 to the bottom row, and no air at or below r. -/
def terrainLayered (width height : ℕ) (deltas : ℕ → ℤ) (oreAt : ℕ → ℕ → Bool) : Prop :=
  ∀ x, x < width →
    ∃ r : ℕ, (r : ℤ) = surfaceHeights ((height / 2 : ℕ) : ℤ) deltas x ∧
      r + 5 ≤ height ∧
      (∀ y, y < r → generate_world width height deltas oreAt y x = 0) ∧
      generate_world width height deltas oreAt r x = 2 ∧
      (∀ y, r < y → y < r + 5 → generate_world width height deltas oreAt y x = 1) ∧
      (∀ y, r + 5 ≤ y → y < height →
        generate_world width height deltas oreAt y x = 3 ∨
        generate_world width height deltas oreAt y x = 4) ∧
      (∀ y, r ≤ y → y < height → generate_world width height deltas oreAt y x ≠ 0)

/-- The clamp keeps every surface row within base plus or minus 4. -/
theorem surfaceHeights_bounds (base : ℤ) (deltas : ℕ → ℤ) (x : ℕ) :
    base - 4 ≤ surfaceHeights base deltas x ∧ surfaceHeights base deltas x ≤ base + 4 := by
  cases x <;> constructor <;> simp [surfaceHeights] <;> omega

/-- C3 (amended): for every grid of height at least 17 — in particular the
game's 100 x 60 grid — every column satisfies the claimed layering: air
above the surface row, grass there, dirt for exactly four rows, then only
stone or ore down to the bottom, never air at or below the surface. -/
theorem C3_terrain_layers (width height : ℕ) (deltas : ℕ → ℤ) (oreAt : ℕ → ℕ → Bool)
    (hh : 17 ≤ height) : terrainLayered width height deltas oreAt := by
  intro x hx
  obtain ⟨hlo, hhi⟩ := surfaceHeights_bounds ((height / 2 : ℕ) : ℤ) deltas x
  set ch := surfaceHeights ((height / 2 : ℕ) : ℤ) deltas x with hch
  have hch0 : 0 ≤ ch := by omega
  have hchtop : ch + 5 ≤ (height : ℤ) := by omega
  have hgen : ∀ y, y < height →
      generate_world width height deltas oreAt y x = columnTile ch (oreAt x) y := by
    intro y hy
    unfold generate_world
    rw [if_pos ⟨hx, hy⟩, ← hch]
  refine ⟨ch.toNat, by omega, by omega, ?_, ?_, ?_, ?_, ?_⟩
  · intro y hy
    rw [hgen y (by omega)]
    unfold columnTile
    rw [if_pos (by omega : (y : ℤ) < ch)]
  · rw [hgen ch.toNat (by omega)]
    unfold columnTile
    rw [if_neg (by omega : ¬ ((ch.toNat : ℤ) < ch)), if_pos (by omega : (ch.toNat : ℤ) = ch)]
  · intro y h1 h2
    rw [hgen y (by omega)]
    unfold columnTile
    rw [if_neg (by omega : ¬ ((y : ℤ) < ch)), if_neg (by omega : ¬ ((y : ℤ) = ch)),
      if_pos (by omega : (y : ℤ) < ch + 5)]
  · intro y h1 h2
    rw [hgen y h2]
    unfold columnTile
    rw [if_neg (by omega : ¬ ((y : ℤ) < ch)), if_neg (by omega : ¬ ((y : ℤ) = ch)),
      if_neg (by omega : ¬ ((y : ℤ) < ch + 5))]
    cases oreAt x y
    · left; norm_num
    · right; norm_num
  · intro y h1 h2
    rw [hgen y h2]
    unfold columnTile
    rw [if_neg (by omega : ¬ ((y : ℤ) < ch))]
    by_cases hyc : (y : ℤ) = ch
    · rw [if_pos hyc]
      norm_num
    · rw [if_neg hyc]
      by_cases h5 : (y : ℤ) < ch + 5
      · rw [if_pos h5]
        norm_num
      · rw [if_neg h5]
        cases oreAt x y <;> norm_num

/-- Witness for C3: the layering holds on a concrete 3 x 20 grid. -/
theorem C3_terrain_layers_witness :
    terrainLayered 3 20 (fun _ => 1) (fun _ _ => false) :=
  C3_terrain_layers 3 20 (fun _ => 1) (fun _ _ => false) (by norm_num)

/-- C3 counterexample: at width 1, height 10 with a +1 perturbation the
clamped surface row is 6, leaving only three dirt rows (7, 8, 9) above the
grid bottom and no stone layer, so the claimed layering — four dirt rows
then stone or ore — fails for this width and height. -/
theorem C3_counterexample :
    ¬ terrainLayered 1 10 (fun _ => 1) (fun _ _ => false) := by
  intro h
  obtain ⟨r, hr, hr5, _⟩ := h 0 (by norm_num)
  have hs : surfaceHeights (((10 : ℕ) / 2 : ℕ) : ℤ) (fun _ => 1) 0 = 6 := by decide
  rw [hs] at hr
  omega
